import Mathlib

/-!
Shallow embedding of the heart-rate estimation core of the kiosk repository:
the rolling signal buffer and spectral heart-rate estimator of
`backend/processors/rppg_processor.py` (`FastRPPGProcessor`), and the vitals
smoother / diagnosis classifier of `backend/services/diagnosis_service.py`
(`RealTimeMedicalDiagnosis.analyze_vitals`).

Numbers (Python floats) are modelled as rationals: every finite IEEE double
is a rational, so a statement quantified over ℚ covers every value the code
can actually compute.  The analytic front end of the estimator
(`scipy.signal.detrend`, Butterworth `filtfilt`, `scipy.fft.fft` magnitude)
produces the per-bin spectral magnitudes consumed by the peak-selection
logic; that front end is modelled as an explicit parameter giving the
magnitude of each FFT bin, with the raised-exception case of the source's
`try` block modelled as `none` (the `except` branch).  The frequency grid
`fftfreq`, the band masking, the arg-max peak selection, the BPM conversion
and the confidence ratio are embedded exactly.
-/

namespace Kiosk

/-- Capacity of the rolling signal buffer (`window_size=120` in
`FastRPPGProcessor.__init__`). -/
def windowSize : ℕ := 120

/-- Default sampling rate (`fps=30` in `FastRPPGProcessor.__init__`). -/
def fpsDefault : ℚ := 30

/-- The last `C` elements of a list, in arrival order. -/
def lastN (C : ℕ) (l : List ℚ) : List ℚ := l.drop (l.length - C)

/-- `collections.deque(maxlen=C)` append (`FastRPPGProcessor.add_signal`):
the new value goes to the right; if the deque is full the oldest (leftmost)
element is evicted, so the buffer always holds the last `C` values. -/
def dequeAppend (C : ℕ) (q : List ℚ) (x : ℚ) : List ℚ := lastN C (q ++ [x])

/-- Feeding a whole sample sequence into the buffer by repeated
`add_signal`. -/
def addAll (C : ℕ) (q : List ℚ) (xs : List ℚ) : List ℚ := xs.foldl (dequeAppend C) q

/-- Bin `k` of `scipy.fft.fftfreq(n, 1.0 / fps)`: the first half of the
bins (`2*k < n`) carry frequency `k*fps/n`, the second half the negative
frequencies `(k - n)*fps/n`. -/
def fftfreqVal (n : ℕ) (fps : ℚ) (k : ℕ) : ℚ :=
  (if 2 * k < n then (k : ℚ) else (k : ℚ) - (n : ℚ)) * fps / (n : ℚ)

/-- The list of (frequency, magnitude) pairs over all `n` FFT bins, where
`mag k` is the spectral magnitude `|fft(signal_filtered)[k]|`. -/
def freqBins (fps : ℚ) (n : ℕ) (mag : ℕ → ℚ) : List (ℚ × ℚ) :=
  (List.range n).map (fun k => (fftfreqVal n fps k, mag k))

/-- `frequencies > 0` masking: `positive_freq` together with the matching
entries of `magnitude`. -/
def posBins (fps : ℚ) (n : ℕ) (mag : ℕ → ℚ) : List (ℚ × ℚ) :=
  (freqBins fps n mag).filter (fun p => decide (0 < p.1))

/-- `hr_mask = (positive_freq >= 0.8) & (positive_freq <= 3.0)`:
`hr_freq` paired with `hr_magnitude`. -/
def hrBins (fps : ℚ) (n : ℕ) (mag : ℕ → ℚ) : List (ℚ × ℚ) :=
  (posBins fps n mag).filter (fun p => decide (4/5 ≤ p.1 ∧ p.1 ≤ 3))

/-- One step of `np.argmax` over (frequency, magnitude) pairs: keep the
current best unless the next magnitude is strictly larger (so ties keep the
earliest element, as `argmax` returns the first occurrence). -/
def pickStep (best q : ℚ × ℚ) : ℚ × ℚ := if best.2 < q.2 then q else best

/-- The (frequency, magnitude) pair selected by
`peak_idx = np.argmax(hr_magnitude)`: the first pair attaining the maximal
magnitude. -/
def pickPeak : List (ℚ × ℚ) → ℚ × ℚ
  | [] => (0, 0)
  | p :: ps => ps.foldl pickStep p

/-- `np.mean` of a list. -/
def listMean (l : List ℚ) : ℚ := l.sum / (l.length : ℚ)

/-- The float expression `min(p / m, 1.0)`.  When `m = 0` the IEEE quotient
is not finite: `0/0` is NaN (and Python's `min(nan, 1.0)` keeps the NaN),
while `p/0` with `p > 0` is `+inf` and `min` gives `1.0`.  A non-finite
result is modelled as `none`. -/
def minDivOne (p m : ℚ) : Option ℚ :=
  if m = 0 then (if 0 < p then some 1 else none) else some (min (p / m) 1)

/-- `FastRPPGProcessor.compute_heart_rate`.  `buf` is the current contents
of `signal_buffer`; `dsp` is the outcome of the analytic front end of the
`try` block (`detrend`, `filtfilt`, `fft`): `some mag` gives the magnitude
of each FFT bin of the filtered window, `none` models an exception raised
there (caught by the `except` branch).  Returns `(bpm, confidence)`; a
non-finite float confidence is `none`. -/
def compute_heart_rate (fps : ℚ) (buf : List ℚ) (dsp : Option (ℕ → ℚ)) :
    ℚ × Option ℚ :=
  if buf.length < 40 then (0, some 0)
  else
    match dsp with
    | none => (0, some 0)
    | some mag =>
      let hr := hrBins fps buf.length mag
      if hr.isEmpty then (0, some 0)
      else
        let peak := pickPeak hr
        (peak.1 * 60,
         minDivOne peak.2 (listMean ((posBins fps buf.length mag).map Prod.snd)))

/-- The sample times `0, ..., n-1` of a window, as rationals. -/
def sampleTimes (x : List ℚ) : List ℚ :=
  (List.range x.length).map (Nat.cast : ℕ → ℚ)

/-- Least-squares slope of the line fitted through `(t, x t)`. -/
def detrendSlope (x : List ℚ) : ℚ :=
  ((x.length : ℚ) * (((sampleTimes x).zip x).map (fun p => p.1 * p.2)).sum -
      (sampleTimes x).sum * x.sum) /
    ((x.length : ℚ) * ((sampleTimes x).map (fun t => t * t)).sum -
      (sampleTimes x).sum * (sampleTimes x).sum)

/-- Least-squares intercept of the fitted line. -/
def detrendIntercept (x : List ℚ) : ℚ :=
  (x.sum - detrendSlope x * (sampleTimes x).sum) / (x.length : ℚ)

/-- `scipy.signal.detrend(x)` (linear type): subtract the least-squares
line fitted against sample times `0, ..., n-1`. -/
def detrend (x : List ℚ) : List ℚ :=
  ((sampleTimes x).zip x).map
    (fun p => p.2 - (detrendIntercept x + detrendSlope x * p.1))

/-- A recommendation record as built by
`extract_recommendations_from_advice` (keys `id`, `text`, `category`,
`type`, `timestamp`, `full_advice`). -/
structure Rec where
  id : String
  text : String
  category : String
  type : String
  timestamp : ℚ
  full_advice : String
deriving DecidableEq

/-- The mutable state of `RealTimeMedicalDiagnosis` touched by
`analyze_vitals`: the two `deque(maxlen=15)` histories, plus the fields it
reads to build the snapshot. -/
structure DiagState where
  bpm_history : List ℚ
  stress_history : List ℚ
  last_ai_advice : String
  recommendation_history : List Rec
deriving DecidableEq

/-- The dictionary returned by `analyze_vitals`.  The no-data dictionary of
the reject branch has no `update_count` key, modelled as `none`. -/
structure VitalSigns where
  heart_rate : ℚ
  stress_level : ℚ
  fatigue_risk : String
  health_status : String
  alerts : List String
  confidence : ℚ
  update_count : Option ℕ
  ai_advice : String
  recommendations : List Rec
deriving DecidableEq

/-- The freshly constructed state of `RealTimeMedicalDiagnosis.__init__`:
empty histories, the initial advice placeholder, no recommendations. -/
def initState : DiagState :=
  { bpm_history := [], stress_history := [],
    last_ai_advice := "AI medical assessment will appear here...",
    recommendation_history := [] }

/-- Python `round` to an integer: round half to even. -/
def roundHalfEven (x : ℚ) : ℤ :=
  if x - (⌊x⌋ : ℚ) < 1/2 then ⌊x⌋
  else if (1 : ℚ)/2 < x - (⌊x⌋ : ℚ) then ⌊x⌋ + 1
  else if 2 ∣ ⌊x⌋ then ⌊x⌋ else ⌊x⌋ + 1

/-- Python `round(x, d)`. -/
def roundTo (d : ℕ) (x : ℚ) : ℚ := (roundHalfEven (x * 10 ^ d) : ℚ) / 10 ^ d

/-- One step of building `unique_recs` in `_get_current_recommendations`:
a Python dict keeps first-insertion key order and overwrites the stored
value for a repeated key in place. -/
def upsertRec (acc : List Rec) (r : Rec) : List Rec :=
  if acc.any (fun q => q.id == r.id) then
    acc.map (fun q => if q.id == r.id then r else q)
  else acc ++ [r]

/-- `_get_current_recommendations`: deduplicate by `id` (keeping the last
record per id at the first-seen position) and return the last 15. -/
def currentRecommendations (h : List Rec) : List Rec :=
  let u := h.foldl upsertRec []
  u.drop (u.length - 15)

/-- Heart-rate history after the append of an accepted `analyze_vitals`
call (`self.bpm_history.append(bpm)`, `maxlen=15`). -/
def postBpmHistory (st : DiagState) (bpm : ℚ) : List ℚ :=
  dequeAppend 15 st.bpm_history bpm

/-- `stress_level = 1.0 - min(confidence, 1.0)`. -/
def stressLevelOf (confidence : ℚ) : ℚ := 1 - min confidence 1

/-- Stress history after the append of an accepted call. -/
def postStressHistory (st : DiagState) (confidence : ℚ) : List ℚ :=
  dequeAppend 15 st.stress_history (stressLevelOf confidence)

/-- `avg_stress = np.mean(list(self.stress_history)) if self.stress_history
else 0`, evaluated after the append. -/
def avgStress (st : DiagState) (confidence : ℚ) : ℚ :=
  let sh := postStressHistory st confidence
  if sh.isEmpty then 0 else listMean sh

/-- The heart-rate alert of `analyze_vitals`. -/
def hrAlert (bpm : ℚ) : String :=
  if 100 < bpm then "Elevated heart rate"
  else if bpm < 50 then "Low heart rate"
  else "Normal heart rate"

/-- `health_status`: starts "Normal", set to "Warning" by either abnormal
heart-rate branch. -/
def healthStatusOf (bpm : ℚ) : String :=
  if 100 < bpm then "Warning" else if bpm < 50 then "Warning" else "Normal"

/-- The stress alert of `analyze_vitals`. -/
def stressAlert (avg : ℚ) : String :=
  if 7/10 < avg then "High stress detected"
  else if 1/2 < avg then "Moderate stress"
  else "Low stress"

/-- `fatigue_risk` as set by the stress branch. -/
def stressRisk (avg : ℚ) : String :=
  if 7/10 < avg then "High" else if 1/2 < avg then "Medium" else "Low"

/-- The fatigue-trend test of `analyze_vitals` on the post-append history:
at least 8 entries and `earlier_avg - recent_avg > 8`, where `recent_avg`
is the mean of the last four entries and `earlier_avg` the mean of the four
before them (`[-8:-4]`). -/
def fatigueFlag (st : DiagState) (bpm : ℚ) : Prop :=
  8 ≤ (postBpmHistory st bpm).length ∧
    8 < listMean (((postBpmHistory st bpm).drop ((postBpmHistory st bpm).length - 8)).take 4) -
          listMean ((postBpmHistory st bpm).drop ((postBpmHistory st bpm).length - 4))

instance (st : DiagState) (bpm : ℚ) : Decidable (fatigueFlag st bpm) :=
  instDecidableAnd

/-- The dictionary returned by the reject branch of `analyze_vitals`
(`bpm == 0 or confidence < 0.2`). -/
def noDataSnapshot : VitalSigns :=
  { heart_rate := 0, stress_level := 0, fatigue_risk := "Unknown",
    health_status := "No data", alerts := ["Detecting face..."],
    confidence := 0, update_count := none,
    ai_advice := "Please position yourself clearly in front of the camera for analysis.",
    recommendations := [] }

/-- `RealTimeMedicalDiagnosis.analyze_vitals`, returning the updated state
(the two histories; nothing else is written) together with the snapshot
dictionary. -/
def analyze_vitals (st : DiagState) (bpm confidence : ℚ) :
    DiagState × VitalSigns :=
  if bpm = 0 ∨ confidence < 1/5 then (st, noDataSnapshot)
  else
    let bh := postBpmHistory st bpm
    let sh := postStressHistory st confidence
    let avg := avgStress st confidence
    let alerts := [hrAlert bpm, stressAlert avg] ++
      (if fatigueFlag st bpm then ["Possible fatigue detected"] else [])
    let risk := if fatigueFlag st bpm then "High" else stressRisk avg
    ({ st with bpm_history := bh, stress_history := sh },
     { heart_rate := roundTo 1 bpm, stress_level := roundTo 2 avg,
       fatigue_risk := risk, health_status := healthStatusOf bpm,
       alerts := alerts, confidence := roundTo 2 confidence,
       update_count := some bh.length, ai_advice := st.last_ai_advice,
       recommendations := currentRecommendations st.recommendation_history })

/-- A sequence of `analyze_vitals` calls, threading the state. -/
def foldVitals (st : DiagState) (l : List (ℚ × ℚ)) : DiagState :=
  l.foldl (fun s p => (analyze_vitals s p.1 p.2).1) st

/-! ### Lemmas about the rolling buffer -/

/-- The length of the retained suffix. -/
theorem lastN_length (C : ℕ) (l : List ℚ) : (lastN C l).length = min C l.length := by
  simp only [lastN, List.length_drop]
  omega

/-- If a list already fits the capacity, `lastN` keeps it whole. -/
theorem lastN_of_le (C : ℕ) (l : List ℚ) (h : l.length ≤ C) : lastN C l = l := by
  simp only [lastN]
  rw [Nat.sub_eq_zero_of_le h, List.drop_zero]

/-- Taking the last `C` of a suffix already truncated to `C` is the same as
truncating the whole concatenation. -/
theorem lastN_append (C : ℕ) (l ys : List ℚ) :
    lastN C (lastN C l ++ ys) = lastN C (l ++ ys) := by
  by_cases h : l.length ≤ C
  · rw [lastN_of_le C l h]
  · push_neg at h
    simp only [lastN, List.length_append, List.length_drop]
    rw [List.drop_append_eq_append_drop, List.drop_append_eq_append_drop,
      List.drop_drop, List.length_drop]
    have h1 : l.length - C + (l.length - (l.length - C) + ys.length - C) =
        l.length + ys.length - C := by omega
    have h2 : l.length - (l.length - C) + ys.length - C - (l.length - (l.length - C)) =
        l.length + ys.length - C - l.length := by omega
    rw [h1, h2]

/-- Running the whole sample sequence through `add_signal` starting from a
buffer within capacity keeps exactly the last `C` of everything seen. -/
theorem addAll_eq_lastN (C : ℕ) (q xs : List ℚ) (hq : q.length ≤ C) :
    addAll C q xs = lastN C (q ++ xs) := by
  induction xs generalizing q with
  | nil => simpa [addAll] using (lastN_of_le C q hq).symm
  | cons x xs ih =>
    have h1 : addAll C q (x :: xs) = addAll C (dequeAppend C q x) xs := rfl
    rw [h1, ih (dequeAppend C q x) (by simp [dequeAppend, lastN_length])]
    simp only [dequeAppend]
    rw [lastN_append]
    simp

/-- C3: for every sequence of values fed to the rolling signal buffer by
`add_signal`, the buffer length never exceeds the capacity `C` (default
`windowSize = 120`), and after all additions the buffer holds exactly the
last `C` values added, in their original arrival order (strict FIFO
eviction of the oldest element). -/
theorem C3_buffer_fifo (C : ℕ) (xs : List ℚ) :
    (addAll C [] xs).length ≤ C ∧
      addAll C [] xs = xs.drop (xs.length - C) ∧
      (addAll windowSize [] xs).length ≤ windowSize := by
  have h := addAll_eq_lastN C [] xs (by simp)
  have h120 := addAll_eq_lastN windowSize [] xs (by simp)
  simp only [List.nil_append] at h h120
  refine ⟨?_, ?_, ?_⟩
  · rw [h, lastN_length]; omega
  · rw [h]; rfl
  · rw [h120, lastN_length]; omega

/-! ### Lemmas about peak selection -/

theorem foldl_pickStep_mem (ps : List (ℚ × ℚ)) (p : ℚ × ℚ) :
    ps.foldl pickStep p ∈ p :: ps := by
  induction ps generalizing p with
  | nil => simp [List.foldl]
  | cons q ps ih =>
    have h := ih (pickStep p q)
    show List.foldl pickStep (pickStep p q) ps ∈ p :: q :: ps
    rcases List.mem_cons.1 h with h1 | h1
    · rw [h1]
      by_cases hc : p.2 < q.2 <;> simp [pickStep, hc]
    · simp [List.mem_cons, h1]

theorem pickStep_left_le (p q : ℚ × ℚ) : p.2 ≤ (pickStep p q).2 := by
  by_cases hc : p.2 < q.2
  · simp only [pickStep, if_pos hc]; exact le_of_lt hc
  · simp [pickStep, hc]

theorem pickStep_right_le (p q : ℚ × ℚ) : q.2 ≤ (pickStep p q).2 := by
  by_cases hc : p.2 < q.2
  · simp [pickStep, hc]
  · simp only [pickStep, if_neg hc]; exact le_of_not_lt hc

theorem foldl_pickStep_le (ps : List (ℚ × ℚ)) (p : ℚ × ℚ) :
    ∀ q ∈ p :: ps, q.2 ≤ (ps.foldl pickStep p).2 := by
  induction ps generalizing p with
  | nil =>
    intro q hq
    rw [List.mem_singleton.1 hq]
    exact le_rfl
  | cons r ps ih =>
    intro q hq
    have hseed : (pickStep p r).2 ≤ (List.foldl pickStep (pickStep p r) ps).2 :=
      ih (pickStep p r) _ (List.mem_cons_self _ _)
    show q.2 ≤ (List.foldl pickStep (pickStep p r) ps).2
    rcases List.mem_cons.1 hq with h1 | h1
    · rw [h1]; exact le_trans (pickStep_left_le p r) hseed
    · rcases List.mem_cons.1 h1 with h2 | h2
      · rw [h2]; exact le_trans (pickStep_right_le p r) hseed
      · exact ih (pickStep p r) q (List.mem_cons_of_mem _ h2)

theorem foldl_pickStep_split (ps : List (ℚ × ℚ)) (p : ℚ × ℚ) :
    ∃ l₁ l₂, p :: ps = l₁ ++ (ps.foldl pickStep p) :: l₂ ∧
      ∀ q ∈ l₁, q.2 < (ps.foldl pickStep p).2 := by
  induction ps generalizing p with
  | nil => exact ⟨[], [], rfl, by simp⟩
  | cons r ps ih =>
    by_cases hc : p.2 < r.2
    · obtain ⟨l₁, l₂, heq, hlt⟩ := ih r
      have hfold : (r :: ps).foldl pickStep p = ps.foldl pickStep r := by
        simp [List.foldl, pickStep, hc]
      have hres : r.2 ≤ (ps.foldl pickStep r).2 :=
        foldl_pickStep_le ps r r (List.mem_cons_self _ _)
      refine ⟨p :: l₁, l₂, ?_, ?_⟩
      · rw [hfold]
        exact congrArg (List.cons p) heq
      · intro q hq
        rw [hfold]
        rcases List.mem_cons.1 hq with h1 | h1
        · rw [h1]; exact lt_of_lt_of_le hc hres
        · exact hlt q h1
    · obtain ⟨l₁, l₂, heq, hlt⟩ := ih p
      have hfold : (r :: ps).foldl pickStep p = ps.foldl pickStep p := by
        simp [List.foldl, pickStep, hc]
      cases l₁ with
      | nil =>
        simp only [List.nil_append] at heq
        have hp : p = ps.foldl pickStep p := (List.cons.injEq _ _ _ _ ▸ heq).1
        have hps : ps = l₂ := (List.cons.injEq _ _ _ _ ▸ heq).2
        refine ⟨[], r :: l₂, ?_, by simp⟩
        rw [hfold, List.nil_append, ← hp, ← hps]
      | cons a l₁ =>
        have ha : a = p := ((List.cons.injEq _ _ _ _ ▸ heq).1).symm
        have hps : ps = l₁ ++ (ps.foldl pickStep p) :: l₂ :=
          (List.cons.injEq _ _ _ _ ▸ heq).2
        have hpl : p.2 < (ps.foldl pickStep p).2 := by
          have := hlt a (List.mem_cons_self _ _)
          rwa [ha] at this
        refine ⟨p :: r :: l₁, l₂, ?_, ?_⟩
        · rw [hfold]
          simp only [List.cons_append]
          rw [← hps]
        · intro q hq
          rw [hfold]
          rcases List.mem_cons.1 hq with h1 | h1
          · rw [h1]; exact hpl
          · rcases List.mem_cons.1 h1 with h2 | h2
            · rw [h2]
              calc r.2 ≤ p.2 := le_of_not_lt hc
                _ < _ := hpl
            · exact hlt q (List.mem_cons_of_mem _ h2)

/-- The selected peak is one of the candidate bins. -/
theorem pickPeak_mem (l : List (ℚ × ℚ)) (h : l ≠ []) : pickPeak l ∈ l := by
  cases l with
  | nil => exact absurd rfl h
  | cons p ps => exact foldl_pickStep_mem ps p

/-- The selected peak has maximal magnitude. -/
theorem pickPeak_le (l : List (ℚ × ℚ)) : ∀ q ∈ l, q.2 ≤ (pickPeak l).2 := by
  cases l with
  | nil => intro q hq; exact absurd hq (List.not_mem_nil q)
  | cons p ps => exact foldl_pickStep_le ps p

/-- The selected peak is the first occurrence of the maximal magnitude:
everything strictly before it in the candidate list has strictly smaller
magnitude. -/
theorem pickPeak_split (l : List (ℚ × ℚ)) (h : l ≠ []) :
    ∃ l₁ l₂, l = l₁ ++ pickPeak l :: l₂ ∧ ∀ q ∈ l₁, q.2 < (pickPeak l).2 := by
  cases l with
  | nil => exact absurd rfl h
  | cons p ps => exact foldl_pickStep_split ps p

/-! ### Lemmas about the frequency bins and compute_heart_rate -/

theorem mem_hrBins_iff (fps : ℚ) (n : ℕ) (mag : ℕ → ℚ) (p : ℚ × ℚ) :
    p ∈ hrBins fps n mag ↔
      (∃ k, k < n ∧ p = (fftfreqVal n fps k, mag k)) ∧
        0 < p.1 ∧ 4/5 ≤ p.1 ∧ p.1 ≤ 3 := by
  simp only [hrBins, posBins, freqBins, List.mem_filter, List.mem_map,
    List.mem_range, decide_eq_true_eq]
  constructor
  · rintro ⟨⟨⟨k, hk, hkp⟩, hpos⟩, hlo, hhi⟩
    exact ⟨⟨k, hk, hkp.symm⟩, hpos, hlo, hhi⟩
  · rintro ⟨⟨k, hk, hkp⟩, hpos, hlo, hhi⟩
    exact ⟨⟨⟨k, hk, hkp.symm⟩, hpos⟩, hlo, hhi⟩

theorem hrBins_band (fps : ℚ) (n : ℕ) (mag : ℕ → ℚ) (p : ℚ × ℚ)
    (hp : p ∈ hrBins fps n mag) : 0 < p.1 ∧ 4/5 ≤ p.1 ∧ p.1 ≤ 3 :=
  ((mem_hrBins_iff fps n mag p).1 hp).2

/-- An in-band candidate magnitude is one of the positive-frequency
magnitudes that the mean is taken over. -/
theorem hrBins_snd_mem (fps : ℚ) (n : ℕ) (mag : ℕ → ℚ) (p : ℚ × ℚ)
    (hp : p ∈ hrBins fps n mag) : p.2 ∈ (posBins fps n mag).map Prod.snd :=
  List.mem_map_of_mem Prod.snd (List.mem_of_mem_filter hp)

theorem posBins_snd_nonneg (fps : ℚ) (n : ℕ) (mag : ℕ → ℚ)
    (h : ∀ k, 0 ≤ mag k) :
    ∀ m ∈ (posBins fps n mag).map Prod.snd, 0 ≤ m := by
  intro m hm
  obtain ⟨p, hp, rfl⟩ := List.mem_map.1 hm
  have hp2 : p ∈ freqBins fps n mag := List.mem_of_mem_filter hp
  obtain ⟨k, hk, rfl⟩ := List.mem_map.1 hp2
  exact h k

theorem chr_short (fps : ℚ) (buf : List ℚ) (dsp : Option (ℕ → ℚ))
    (h : buf.length < 40) : compute_heart_rate fps buf dsp = (0, some 0) := by
  simp [compute_heart_rate, h]

theorem chr_none (fps : ℚ) (buf : List ℚ) :
    compute_heart_rate fps buf none = (0, some 0) := by
  by_cases h : buf.length < 40 <;> simp [compute_heart_rate, h]

theorem chr_empty (fps : ℚ) (buf : List ℚ) (mag : ℕ → ℚ)
    (h40 : ¬ buf.length < 40) (he : hrBins fps buf.length mag = []) :
    compute_heart_rate fps buf (some mag) = (0, some 0) := by
  simp [compute_heart_rate, h40, he]

theorem chr_peak (fps : ℚ) (buf : List ℚ) (mag : ℕ → ℚ)
    (h40 : ¬ buf.length < 40) (hne : hrBins fps buf.length mag ≠ []) :
    compute_heart_rate fps buf (some mag) =
      ((pickPeak (hrBins fps buf.length mag)).1 * 60,
        minDivOne (pickPeak (hrBins fps buf.length mag)).2
          (listMean ((posBins fps buf.length mag).map Prod.snd))) := by
  simp [compute_heart_rate, h40, hne]

/-- On a full window (120 samples) at 30 FPS, every in-band FFT bin
frequency is `k/4` Hz for some `4 ≤ k ≤ 12`. -/
theorem hrBins_freq_form_120 (mag : ℕ → ℚ) (p : ℚ × ℚ)
    (hp : p ∈ hrBins 30 120 mag) :
    ∃ k : ℕ, 4 ≤ k ∧ k ≤ 12 ∧ p.1 = (k : ℚ) / 4 := by
  obtain ⟨⟨k, hk, hpk⟩, hpos, hlo, hhi⟩ := (mem_hrBins_iff 30 120 mag p).1 hp
  have h1 : p.1 = fftfreqVal 120 30 k := by rw [hpk]
  by_cases h2 : 2 * k < 120
  · have hform : p.1 = (k : ℚ) / 4 := by
      rw [h1]; unfold fftfreqVal; rw [if_pos h2]; ring
    refine ⟨k, ?_, ?_, hform⟩
    · rw [hform] at hlo
      have hq : (16 : ℚ) ≤ 5 * (k : ℚ) := by linarith
      have hn : (16 : ℕ) ≤ 5 * k := by exact_mod_cast hq
      omega
    · rw [hform] at hhi
      have hq : (k : ℚ) ≤ 12 := by linarith
      exact_mod_cast hq
  · exfalso
    have hkQ : (k : ℚ) < 120 := by exact_mod_cast hk
    have hneg : p.1 < 0 := by
      rw [h1]; unfold fftfreqVal; rw [if_neg h2]
      have hnum : ((k : ℚ) - 120) * 30 < 0 :=
        mul_neg_of_neg_of_pos (by linarith) (by norm_num)
      exact div_neg_of_neg_of_pos hnum (by norm_num)
    linarith

/-- On a full window at 30 FPS the returned bpm is quantized: it is either
0 or `15 * k` BPM for some bin index `4 ≤ k ≤ 12` — whatever the spectral
magnitudes (hence whatever the input signal) are. -/
theorem bpm_grid_120 (buf : List ℚ) (dsp : Option (ℕ → ℚ))
    (h : buf.length = 120) :
    (compute_heart_rate 30 buf dsp).1 = 0 ∨
      ∃ k : ℕ, 4 ≤ k ∧ k ≤ 12 ∧
        (compute_heart_rate 30 buf dsp).1 = 15 * (k : ℚ) := by
  have h40 : ¬ buf.length < 40 := by omega
  cases dsp with
  | none => exact Or.inl (by rw [chr_none])
  | some mag =>
    by_cases he : hrBins 30 buf.length mag = []
    · exact Or.inl (by rw [chr_empty 30 buf mag h40 he])
    · right
      have hp : pickPeak (hrBins 30 buf.length mag) ∈ hrBins 30 buf.length mag :=
        pickPeak_mem _ he
      rw [h] at hp
      obtain ⟨k, h4, h12, hfreq⟩ := hrBins_freq_form_120 mag _ hp
      refine ⟨k, h4, h12, ?_⟩
      rw [chr_peak 30 buf mag h40 he]
      show (pickPeak (hrBins 30 buf.length mag)).1 * 60 = 15 * (k : ℚ)
      rw [h, hfreq]; ring

theorem fftfreqVal_mono (fps : ℚ) (hfps : 0 < fps) (n k1 k2 : ℕ)
    (h12 : k1 < k2) (h2n : k2 < n)
    (hb1 : 4/5 ≤ fftfreqVal n fps k1) (hb2 : 4/5 ≤ fftfreqVal n fps k2) :
    fftfreqVal n fps k1 < fftfreqVal n fps k2 := by
  have hn : 0 < n := lt_of_le_of_lt (Nat.zero_le _) h2n
  have hnQ : (0 : ℚ) < n := by exact_mod_cast hn
  have hpos : ∀ k, k < n → 4/5 ≤ fftfreqVal n fps k → 2 * k < n := by
    intro k hk hb
    by_contra hcon
    have hkQ : (k : ℚ) < n := by exact_mod_cast hk
    have hlt : fftfreqVal n fps k < 0 := by
      unfold fftfreqVal
      rw [if_neg hcon]
      exact div_neg_of_neg_of_pos (mul_neg_of_neg_of_pos (by linarith) hfps) hnQ
    linarith
  have hp1 : 2 * k1 < n := hpos k1 (lt_trans h12 h2n) hb1
  have hp2 : 2 * k2 < n := hpos k2 h2n hb2
  unfold fftfreqVal
  rw [if_pos hp1, if_pos hp2]
  have hk12 : (k1 : ℚ) < k2 := by exact_mod_cast h12
  have hmul : (k1 : ℚ) * fps < (k2 : ℚ) * fps := mul_lt_mul_of_pos_right hk12 hfps
  exact (div_lt_div_iff_of_pos_right hnQ).2 hmul

/-- The in-band candidate list is sorted by strictly increasing
frequency. -/
theorem hrBins_sorted (fps : ℚ) (hfps : 0 < fps) (n : ℕ) (mag : ℕ → ℚ) :
    (hrBins fps n mag).Pairwise (fun p q => p.1 < q.1) := by
  have h0 : (List.range n).Pairwise (fun k1 k2 => k1 < k2 ∧ k2 < n) :=
    (List.pairwise_lt_range n).imp_of_mem
      (fun {a b} _ hb h => ⟨h, List.mem_range.1 hb⟩)
  have h1 : (freqBins fps n mag).Pairwise
      (fun p q => 4/5 ≤ p.1 → 4/5 ≤ q.1 → p.1 < q.1) := by
    unfold freqBins
    refine List.Pairwise.map _ ?_ h0
    intro k1 k2 hk hb1 hb2
    exact fftfreqVal_mono fps hfps n k1 k2 hk.1 hk.2 hb1 hb2
  have hsub : List.Sublist (hrBins fps n mag) (freqBins fps n mag) :=
    (List.filter_sublist _).trans (List.filter_sublist _)
  have h2 : (hrBins fps n mag).Pairwise
      (fun p q => 4/5 ≤ p.1 → 4/5 ≤ q.1 → p.1 < q.1) :=
    h1.sublist hsub
  refine h2.imp_of_mem ?_
  intro p q hp hq himp
  exact himp (hrBins_band fps n mag p hp).2.1 (hrBins_band fps n mag q hq).2.1

/-- Tie-break: among all in-band candidates attaining the maximal
magnitude, the selected peak has the least frequency (first occurrence in
frequency-ascending order). -/
theorem pickPeak_first_max (fps : ℚ) (hfps : 0 < fps) (n : ℕ) (mag : ℕ → ℚ)
    (hne : hrBins fps n mag ≠ []) :
    ∀ q ∈ hrBins fps n mag, q.2 = (pickPeak (hrBins fps n mag)).2 →
      (pickPeak (hrBins fps n mag)).1 ≤ q.1 := by
  intro q hq heq
  obtain ⟨l₁, l₂, hsplit, hlt⟩ := pickPeak_split _ hne
  have hsorted := hrBins_sorted fps hfps n mag
  rw [hsplit] at hq hsorted
  rcases List.mem_append.1 hq with h1 | h1
  · exact absurd heq (ne_of_lt (hlt q h1))
  · rcases List.mem_cons.1 h1 with h2 | h2
    · rw [h2]
    · have hp2 := (List.pairwise_append.1 hsorted).2.1
      exact le_of_lt ((List.pairwise_cons.1 hp2).1 q h2)

/-- With the default configuration (FPS 30, 120-sample window) the 1 Hz
bin (index 4) is always an in-band candidate, whatever the magnitudes. -/
theorem hrBins_mem_120 (mag : ℕ → ℚ) : ((1 : ℚ), mag 4) ∈ hrBins 30 120 mag := by
  apply (mem_hrBins_iff 30 120 mag (1, mag 4)).2
  have h4 : fftfreqVal 120 30 4 = 1 := by unfold fftfreqVal; norm_num
  exact ⟨⟨4, by norm_num, by rw [h4]⟩, by norm_num, by norm_num, by norm_num⟩

theorem hrBins_ne_nil_120 (mag : ℕ → ℚ) : hrBins 30 120 mag ≠ [] := by
  intro hnil
  have hm := hrBins_mem_120 mag
  rw [hnil] at hm
  exact List.not_mem_nil _ hm

/-! ### Claims C1, C2, C4 -/

/-- C1 (counterexample): the ±2 BPM claim fails at the in-band sinusoid
frequency f = 1.1 Hz (f*60 = 66 BPM).  With the configured FPS (30) and a
full window (120 samples) there is NO input window and NO outcome of the
detrend/filter/FFT front end — in particular not the one actually produced
by a pure 1.1 Hz sinusoid — for which compute_heart_rate returns a bpm
within ±2 of 66: on a 120-sample window the bpm is quantized to the grid
{0} ∪ {60, 75, …, 180}, every point of which is at least 6 BPM from 66. -/
theorem C1_counterexample :
    ¬ ∃ (buf : List ℚ) (dsp : Option (ℕ → ℚ)), buf.length = 120 ∧
        |(compute_heart_rate 30 buf dsp).1 - 66| ≤ 2 := by
  rintro ⟨buf, dsp, hlen, habs⟩
  rw [abs_le] at habs
  obtain ⟨hl, hr⟩ := habs
  rcases bpm_grid_120 buf dsp hlen with h0 | ⟨k, h4, h12, hk⟩
  · rw [h0] at hl; norm_num at hl
  · rw [hk] at hl hr
    interval_cases k <;> norm_num at hl hr

/-- C1 (amended): on a full 120-sample window at 30 FPS the returned bpm is
quantized to the FFT bin grid — it is 0 or 15·k BPM with 4 ≤ k ≤ 12 (that
is, one of 60, 75, …, 180 BPM) — whatever the input signal and spectral
magnitudes.  A sinusoid frequency f is therefore recovered only up to half
a bin (±7.5 BPM); the ±2 BPM tolerance is achievable only when f·60 lies
within 2 BPM of this grid (e.g. on-bin frequencies, multiples of 0.25 Hz). -/
theorem C1_amended_bpm_grid (buf : List ℚ) (dsp : Option (ℕ → ℚ))
    (h : buf.length = 120) :
    (compute_heart_rate 30 buf dsp).1 = 0 ∨
      ∃ k : ℕ, 4 ≤ k ∧ k ≤ 12 ∧
        (compute_heart_rate 30 buf dsp).1 = 15 * (k : ℚ) :=
  bpm_grid_120 buf dsp h

theorem C1_amended_bpm_grid_witness :
    (compute_heart_rate 30 (List.replicate 120 (0 : ℚ)) none).1 = 0 ∨
      ∃ k : ℕ, 4 ≤ k ∧ k ≤ 12 ∧
        (compute_heart_rate 30 (List.replicate 120 (0 : ℚ)) none).1 = 15 * (k : ℚ) :=
  C1_amended_bpm_grid (List.replicate 120 0) none (by simp)

/-- C2: compute_heart_rate never raises.  When the buffered window is below
the 40-sample ready threshold it returns (0, 0) whatever the DSP front end
would produce — the result does not depend on it, so detrending/filtering
are not consulted — and when the detrend/filter/FFT processing fails (the
except branch, dsp = none) the failure is absorbed and reported as the
zero-confidence result (0, 0). -/
theorem C2_error_absorption (fps : ℚ) (buf : List ℚ) (dsp : Option (ℕ → ℚ)) :
    (buf.length < 40 →
       compute_heart_rate fps buf dsp = (0, some 0) ∧
       compute_heart_rate fps buf dsp = compute_heart_rate fps buf none) ∧
    (dsp = none → compute_heart_rate fps buf dsp = (0, some 0)) := by
  constructor
  · intro h
    rw [chr_short fps buf dsp h, chr_none fps buf]
    exact ⟨rfl, rfl⟩
  · rintro rfl
    exact chr_none fps buf

theorem C2_error_absorption_witness :
    compute_heart_rate 30 [1, 2, 3] (some fun _ => 1) = (0, some 0) ∧
      compute_heart_rate 30 (List.replicate 120 (1 : ℚ)) none = (0, some 0) :=
  ⟨((C2_error_absorption 30 [1, 2, 3] (some fun _ => 1)).1 (by simp)).1,
   (C2_error_absorption 30 (List.replicate 120 (1 : ℚ)) none).2 rfl⟩

/-- C4: the peak search is restricted to strictly positive frequency bins
within [0.8, 3.0] Hz; if no bins fall in that range the result is (0, 0);
otherwise the returned bpm is 60 times the frequency of a maximal-magnitude
in-band bin (on ties, the one of least frequency — the first occurrence in
the frequency-ascending candidate list), so every nonzero bpm lies in
[48, 180]. -/
theorem C4_peak_selection (fps : ℚ) (buf : List ℚ) (mag : ℕ → ℚ)
    (hfps : 0 < fps) (h40 : ¬ buf.length < 40) :
    (∀ p ∈ hrBins fps buf.length mag, 0 < p.1 ∧ 4/5 ≤ p.1 ∧ p.1 ≤ 3) ∧
    (hrBins fps buf.length mag = [] →
       compute_heart_rate fps buf (some mag) = (0, some 0)) ∧
    (hrBins fps buf.length mag ≠ [] →
       pickPeak (hrBins fps buf.length mag) ∈ hrBins fps buf.length mag ∧
       (∀ q ∈ hrBins fps buf.length mag,
          q.2 ≤ (pickPeak (hrBins fps buf.length mag)).2) ∧
       (∀ q ∈ hrBins fps buf.length mag,
          q.2 = (pickPeak (hrBins fps buf.length mag)).2 →
            (pickPeak (hrBins fps buf.length mag)).1 ≤ q.1) ∧
       (compute_heart_rate fps buf (some mag)).1 =
         (pickPeak (hrBins fps buf.length mag)).1 * 60) ∧
    ((compute_heart_rate fps buf (some mag)).1 ≠ 0 →
       48 ≤ (compute_heart_rate fps buf (some mag)).1 ∧
         (compute_heart_rate fps buf (some mag)).1 ≤ 180) := by
  refine ⟨fun p hp => hrBins_band fps buf.length mag p hp,
          fun he => chr_empty fps buf mag h40 he,
          fun hne => ⟨pickPeak_mem _ hne, pickPeak_le _,
                      pickPeak_first_max fps hfps buf.length mag hne,
                      by rw [chr_peak fps buf mag h40 hne]⟩,
          ?_⟩
  intro hz
  by_cases he : hrBins fps buf.length mag = []
  · exact absurd (by rw [chr_empty fps buf mag h40 he]) hz
  · have hband := hrBins_band fps buf.length mag _ (pickPeak_mem _ he)
    rw [chr_peak fps buf mag h40 he]
    show 48 ≤ (pickPeak (hrBins fps buf.length mag)).1 * 60 ∧
      (pickPeak (hrBins fps buf.length mag)).1 * 60 ≤ 180
    exact ⟨by linarith [hband.2.1], by linarith [hband.2.2]⟩

theorem C4_peak_selection_witness :
    48 ≤ (compute_heart_rate 30 (List.replicate 120 (0 : ℚ)) (some fun _ => 1)).1 ∧
      (compute_heart_rate 30 (List.replicate 120 (0 : ℚ)) (some fun _ => 1)).1 ≤ 180 := by
  have hne : hrBins 30 (List.replicate 120 (0 : ℚ)).length (fun _ => (1 : ℚ)) ≠ [] := by
    rw [List.length_replicate]
    exact hrBins_ne_nil_120 _
  have h := C4_peak_selection 30 (List.replicate 120 0) (fun _ => 1)
    (by norm_num) (by simp)
  obtain ⟨hmem, _, _, heq⟩ := h.2.2.1 hne
  have hband := h.1 _ hmem
  refine h.2.2.2 ?_
  rw [heq]
  have : (0 : ℚ) < (pickPeak (hrBins 30 (List.replicate 120 (0 : ℚ)).length
      (fun _ => 1))).1 * 60 := by
    have := hband.2.1
    linarith
  exact ne_of_gt this

/-! ### Claim C5: the confidence ratio -/

theorem list_sum_zero_of_nonneg (l : List ℚ) (h : ∀ x ∈ l, 0 ≤ x)
    (hs : l.sum = 0) : ∀ x ∈ l, x = 0 := by
  induction l with
  | nil => intro x hx; exact absurd hx (List.not_mem_nil x)
  | cons a l ih =>
    have hl : ∀ x ∈ l, 0 ≤ x := fun x hx => h x (List.mem_cons_of_mem _ hx)
    have hsum : 0 ≤ l.sum := List.sum_nonneg hl
    have ha : 0 ≤ a := h a (List.mem_cons_self _ _)
    rw [List.sum_cons] at hs
    intro x hx
    rcases List.mem_cons.1 hx with h1 | h1
    · rw [h1]; linarith
    · exact ih hl (by linarith) x h1

theorem listMean_nonneg (l : List ℚ) (h : ∀ x ∈ l, 0 ≤ x) : 0 ≤ listMean l :=
  div_nonneg (List.sum_nonneg h) (Nat.cast_nonneg _)

theorem list_sum_of_all_one (l : List ℚ) (h : ∀ x ∈ l, x = 1) :
    l.sum = (l.length : ℚ) := by
  induction l with
  | nil => simp
  | cons a l ih =>
    have ha := h a (List.mem_cons_self a l)
    have hl := ih (fun x hx => h x (List.mem_cons_of_mem a hx))
    rw [List.sum_cons, ha, hl, List.length_cons]
    push_cast
    ring

theorem zip_replicate_mul_sum (l : List ℚ) (c : ℚ) :
    ((l.zip (List.replicate l.length c)).map (fun p => p.1 * p.2)).sum =
      c * l.sum := by
  induction l with
  | nil => simp
  | cons a l ih =>
    simp only [List.length_cons, List.replicate_succ, List.zip_cons_cons,
      List.map_cons, List.sum_cons, ih]
    ring

theorem zip_replicate_mul_sum_of_len (l : List ℚ) (n : ℕ) (c : ℚ)
    (h : l.length = n) :
    ((l.zip (List.replicate n c)).map (fun p => p.1 * p.2)).sum = c * l.sum := by
  subst h
  exact zip_replicate_mul_sum l c

/-- Detrending a constant window yields a zero slope. -/
theorem detrendSlope_const (n : ℕ) (c : ℚ) :
    detrendSlope (List.replicate n c) = 0 := by
  unfold detrendSlope
  have hlen : (sampleTimes (List.replicate n c)).length = n := by
    unfold sampleTimes
    rw [List.length_map, List.length_range, List.length_replicate]
  rw [zip_replicate_mul_sum_of_len _ n c hlen, List.sum_replicate, nsmul_eq_mul,
    List.length_replicate]
  apply div_eq_zero_iff.2
  left
  ring

/-- Detrending a constant window yields the constant itself as intercept. -/
theorem detrendIntercept_const (n : ℕ) (hn : n ≠ 0) (c : ℚ) :
    detrendIntercept (List.replicate n c) = c := by
  unfold detrendIntercept
  rw [detrendSlope_const, List.sum_replicate, nsmul_eq_mul, List.length_replicate]
  have hnQ : (n : ℚ) ≠ 0 := Nat.cast_ne_zero.2 hn
  field_simp

/-- `scipy.signal.detrend` annihilates a constant window exactly: the
least-squares line through constant data is that constant, so the residual
is identically zero.  (A linear filter and the DFT both map the zero
signal to zero, so the exact spectrum of a flat window is all-zero.) -/
theorem detrend_const (n : ℕ) (c : ℚ) :
    detrend (List.replicate n c) = List.replicate n 0 := by
  rcases Nat.eq_zero_or_pos n with h0 | hpos
  · subst h0; rfl
  · have hn : n ≠ 0 := Nat.pos_iff_ne_zero.1 hpos
    unfold detrend
    rw [detrendSlope_const, detrendIntercept_const n hn]
    apply List.eq_replicate_iff.2
    constructor
    · unfold sampleTimes
      rw [List.length_map, List.length_zip, List.length_map, List.length_range,
        List.length_replicate, Nat.min_self]
    · intro b hb
      obtain ⟨p, hp, rfl⟩ := List.mem_map.1 hb
      obtain ⟨t, v⟩ := p
      have hv : v ∈ List.replicate n c := (List.of_mem_zip hp).2
      have hvc : v = c := List.eq_of_mem_replicate hv
      simp only [hvc]
      ring

/-- C5 (counterexample): for a flat (constant) input window the exact
outcome of the analytic front end is the all-zero spectrum (detrending a
constant window gives the zero signal — `detrend_const` — and the
Butterworth filter and the FFT are linear, mapping zero to zero).  With an
all-zero spectrum the peak magnitude and the mean magnitude are both 0, so
the confidence expression `min(peak/mean, 1.0)` divides 0 by 0: the result
is the non-finite NaN (modelled `none`), not a number ≈ 0.  The claim that
a flat window yields a confidence ≈ 0 rather than a numerical error is
therefore false on the code. -/
theorem C5_counterexample :
    (compute_heart_rate 30 (List.replicate 120 (5 : ℚ)) (some fun _ => 0)).2 =
      none := by
  have h40 : ¬ (List.replicate 120 (5 : ℚ)).length < 40 := by simp
  have hne120 : hrBins 30 120 (fun _ => (0 : ℚ)) ≠ [] := hrBins_ne_nil_120 _
  have hne : hrBins 30 (List.replicate 120 (5 : ℚ)).length (fun _ => (0 : ℚ)) ≠ [] := by
    rw [List.length_replicate]
    exact hne120
  rw [chr_peak 30 _ _ h40 hne]
  simp only [List.length_replicate]
  have hp := pickPeak_mem _ hne120
  obtain ⟨⟨k, hk, hpk⟩, -, -, -⟩ :=
    (mem_hrBins_iff 30 120 (fun _ => (0 : ℚ)) _).1 hp
  have hpeak2 : (pickPeak (hrBins 30 120 fun _ => (0 : ℚ))).2 = 0 := by
    rw [hpk]
  have hall : ∀ m ∈ (posBins 30 120 (fun _ => (0 : ℚ))).map Prod.snd, m = 0 := by
    intro m hm
    obtain ⟨p, hpp, rfl⟩ := List.mem_map.1 hm
    have hfb : p ∈ freqBins 30 120 (fun _ => (0 : ℚ)) :=
      List.mem_of_mem_filter hpp
    obtain ⟨j, hj, rfl⟩ := List.mem_map.1 hfb
    rfl
  have hmean : listMean ((posBins 30 120 (fun _ => (0 : ℚ))).map Prod.snd) = 0 := by
    unfold listMean
    rw [List.sum_eq_zero hall, zero_div]
  rw [hpeak2, hmean]
  simp [minDivOne]

/-- C5 (amended): the confidence is the float `min(peak/mean, 1.0)` over
the positive-frequency magnitudes (which are nonnegative, being absolute
values).  Whenever the mean magnitude is nonzero — every non-degenerate
window — the confidence equals `min(peak/mean, 1)` and lies in [0, 1].
When the spectrum is degenerate (all magnitudes zero, the exact-arithmetic
outcome of a flat constant window) the expression divides 0 by 0 and the
confidence is non-finite (NaN), not ≈ 0. -/
theorem C5_amended_confidence (fps : ℚ) (buf : List ℚ) (mag : ℕ → ℚ)
    (h40 : ¬ buf.length < 40) (hmag : ∀ k, 0 ≤ mag k)
    (hne : hrBins fps buf.length mag ≠ []) :
    (listMean ((posBins fps buf.length mag).map Prod.snd) ≠ 0 →
       (compute_heart_rate fps buf (some mag)).2 =
         some (min ((pickPeak (hrBins fps buf.length mag)).2 /
             listMean ((posBins fps buf.length mag).map Prod.snd)) 1) ∧
       ∀ c, (compute_heart_rate fps buf (some mag)).2 = some c →
         0 ≤ c ∧ c ≤ 1) ∧
    (listMean ((posBins fps buf.length mag).map Prod.snd) = 0 →
       (compute_heart_rate fps buf (some mag)).2 = none) := by
  have hpeakmem : pickPeak (hrBins fps buf.length mag) ∈ hrBins fps buf.length mag :=
    pickPeak_mem _ hne
  have hpeaksnd : (pickPeak (hrBins fps buf.length mag)).2 ∈
      (posBins fps buf.length mag).map Prod.snd :=
    hrBins_snd_mem _ _ _ _ hpeakmem
  have hnonneg : ∀ m ∈ (posBins fps buf.length mag).map Prod.snd, 0 ≤ m :=
    posBins_snd_nonneg fps buf.length mag hmag
  have hpk_nonneg : 0 ≤ (pickPeak (hrBins fps buf.length mag)).2 :=
    hnonneg _ hpeaksnd
  have hmean_nonneg : 0 ≤ listMean ((posBins fps buf.length mag).map Prod.snd) :=
    listMean_nonneg _ hnonneg
  rw [chr_peak fps buf mag h40 hne]
  constructor
  · intro hm
    constructor
    · show minDivOne _ _ = _
      unfold minDivOne
      rw [if_neg hm]
    · intro c hc
      have hc2 : minDivOne (pickPeak (hrBins fps buf.length mag)).2
          (listMean ((posBins fps buf.length mag).map Prod.snd)) = some c := hc
      unfold minDivOne at hc2
      rw [if_neg hm] at hc2
      have hceq : c = min ((pickPeak (hrBins fps buf.length mag)).2 /
          listMean ((posBins fps buf.length mag).map Prod.snd)) 1 :=
        (Option.some.injEq _ _ ▸ hc2).symm
      rw [hceq]
      exact ⟨le_min (div_nonneg hpk_nonneg hmean_nonneg) zero_le_one,
        min_le_right _ _⟩
  · intro hm
    have hlenne : (posBins fps buf.length mag).map Prod.snd ≠ [] :=
      List.ne_nil_of_mem hpeaksnd
    have hlenQ : (((posBins fps buf.length mag).map Prod.snd).length : ℚ) ≠ 0 :=
      Nat.cast_ne_zero.2 (Nat.pos_iff_ne_zero.1 (List.length_pos.2 hlenne))
    have hsum : ((posBins fps buf.length mag).map Prod.snd).sum = 0 := by
      unfold listMean at hm
      rcases div_eq_zero_iff.1 hm with h | h
      · exact h
      · exact absurd h hlenQ
    have hall := list_sum_zero_of_nonneg _ hnonneg hsum
    have hpeak0 : (pickPeak (hrBins fps buf.length mag)).2 = 0 := hall _ hpeaksnd
    show minDivOne _ _ = none
    rw [hpeak0, hm]
    simp [minDivOne]

theorem C5_amended_confidence_witness :
    ∃ c, (compute_heart_rate 30 (List.replicate 120 (0 : ℚ)) (some fun _ => 1)).2 =
        some c ∧ 0 ≤ c ∧ c ≤ 1 := by
  have hne120 : hrBins 30 120 (fun _ => (1 : ℚ)) ≠ [] := hrBins_ne_nil_120 _
  have hne : hrBins 30 (List.replicate 120 (0 : ℚ)).length (fun _ => (1 : ℚ)) ≠ [] := by
    rw [List.length_replicate]
    exact hne120
  have h := C5_amended_confidence 30 (List.replicate 120 0) (fun _ => 1)
    (by simp) (fun _ => zero_le_one) hne
  have hpeakmem := pickPeak_mem _ hne120
  have hpeaksnd := hrBins_snd_mem _ _ _ _ hpeakmem
  have hall : ∀ m ∈ (posBins 30 120 (fun _ => (1 : ℚ))).map Prod.snd, m = 1 := by
    intro m hm
    obtain ⟨p, hp, rfl⟩ := List.mem_map.1 hm
    have hfb : p ∈ freqBins 30 120 (fun _ => (1 : ℚ)) :=
      List.mem_of_mem_filter hp
    obtain ⟨j, hj, rfl⟩ := List.mem_map.1 hfb
    rfl
  have hm120 : listMean ((posBins 30 120 (fun _ => (1 : ℚ))).map Prod.snd) ≠ 0 := by
    have hlenne : (posBins 30 120 (fun _ => (1 : ℚ))).map Prod.snd ≠ [] :=
      List.ne_nil_of_mem hpeaksnd
    have hlenQ : (((posBins 30 120 (fun _ => (1 : ℚ))).map Prod.snd).length : ℚ) ≠ 0 :=
      Nat.cast_ne_zero.2 (Nat.pos_iff_ne_zero.1 (List.length_pos.2 hlenne))
    unfold listMean
    rw [list_sum_of_all_one _ hall, div_self hlenQ]
    norm_num
  have hm : listMean ((posBins 30 (List.replicate 120 (0 : ℚ)).length
      (fun _ => (1 : ℚ))).map Prod.snd) ≠ 0 := by
    rw [List.length_replicate]
    exact hm120
  obtain ⟨heq, hbound⟩ := h.1 hm
  exact ⟨_, heq, hbound _ heq⟩

/-! ### Lemmas about analyze_vitals -/

theorem analyze_vitals_reject (st : DiagState) (bpm conf : ℚ)
    (h : bpm = 0 ∨ conf < 1/5) :
    analyze_vitals st bpm conf = (st, noDataSnapshot) := by
  unfold analyze_vitals
  rw [if_pos h]

theorem analyze_vitals_accept (st : DiagState) (bpm conf : ℚ)
    (h : ¬ (bpm = 0 ∨ conf < 1/5)) :
    analyze_vitals st bpm conf =
      ({ st with bpm_history := postBpmHistory st bpm,
                 stress_history := postStressHistory st conf },
       { heart_rate := roundTo 1 bpm,
         stress_level := roundTo 2 (avgStress st conf),
         fatigue_risk :=
           if fatigueFlag st bpm then "High" else stressRisk (avgStress st conf),
         health_status := healthStatusOf bpm,
         alerts := [hrAlert bpm, stressAlert (avgStress st conf)] ++
           (if fatigueFlag st bpm then ["Possible fatigue detected"] else []),
         confidence := roundTo 2 conf,
         update_count := some (postBpmHistory st bpm).length,
         ai_advice := st.last_ai_advice,
         recommendations := currentRecommendations st.recommendation_history }) := by
  simp only [analyze_vitals, if_neg h]

theorem analyze_vitals_accept_alerts (st : DiagState) (bpm conf : ℚ)
    (h : ¬ (bpm = 0 ∨ conf < 1/5)) :
    (analyze_vitals st bpm conf).2.alerts =
      [hrAlert bpm, stressAlert (avgStress st conf)] ++
        (if fatigueFlag st bpm then ["Possible fatigue detected"] else []) := by
  rw [analyze_vitals_accept st bpm conf h]

theorem analyze_vitals_accept_risk (st : DiagState) (bpm conf : ℚ)
    (h : ¬ (bpm = 0 ∨ conf < 1/5)) :
    (analyze_vitals st bpm conf).2.fatigue_risk =
      (if fatigueFlag st bpm then "High" else stressRisk (avgStress st conf)) := by
  rw [analyze_vitals_accept st bpm conf h]

theorem analyze_vitals_accept_status (st : DiagState) (bpm conf : ℚ)
    (h : ¬ (bpm = 0 ∨ conf < 1/5)) :
    (analyze_vitals st bpm conf).2.health_status = healthStatusOf bpm := by
  rw [analyze_vitals_accept st bpm conf h]

theorem analyze_vitals_accept_hr (st : DiagState) (bpm conf : ℚ)
    (h : ¬ (bpm = 0 ∨ conf < 1/5)) :
    (analyze_vitals st bpm conf).2.heart_rate = roundTo 1 bpm := by
  rw [analyze_vitals_accept st bpm conf h]

theorem analyze_vitals_accept_stress (st : DiagState) (bpm conf : ℚ)
    (h : ¬ (bpm = 0 ∨ conf < 1/5)) :
    (analyze_vitals st bpm conf).2.stress_level = roundTo 2 (avgStress st conf) := by
  rw [analyze_vitals_accept st bpm conf h]

theorem min_nine_tenths_one : min (9/10 : ℚ) 1 = 9/10 :=
  min_eq_left (by norm_num)

theorem postStressHistory_init : postStressHistory initState (9/10) = [1/10] := by
  unfold postStressHistory dequeAppend lastN stressLevelOf initState
  rw [min_nine_tenths_one]
  norm_num

theorem avgStress_init : avgStress initState (9/10) = 1/10 := by
  unfold avgStress
  rw [postStressHistory_init]
  simp [listMean]

theorem not_fatigueFlag_init (bpm : ℚ) : ¬ fatigueFlag initState bpm := by
  intro hf
  have h8 := hf.1
  simp [postBpmHistory, dequeAppend, lastN, initState] at h8

/-- C6: whenever bpm = 0 or confidence < 0.2, analyze_vitals modifies
neither history (the state is returned unchanged) and the snapshot carries
fatigueRisk "Unknown" and healthStatus "No data". -/
theorem C6_reject_no_update (st : DiagState) (bpm conf : ℚ)
    (h : bpm = 0 ∨ conf < 1/5) :
    (analyze_vitals st bpm conf).1 = st ∧
      (analyze_vitals st bpm conf).2.fatigue_risk = "Unknown" ∧
      (analyze_vitals st bpm conf).2.health_status = "No data" := by
  rw [analyze_vitals_reject st bpm conf h]
  exact ⟨rfl, rfl, rfl⟩

theorem C6_reject_no_update_witness :
    (analyze_vitals initState 0 1).1 = initState ∧
      (analyze_vitals initState 0 1).2.fatigue_risk = "Unknown" ∧
      (analyze_vitals initState 0 1).2.health_status = "No data" :=
  C6_reject_no_update initState 0 1 (Or.inl rfl)

/-- C10: analyze_vitals preserves the equal-length invariant of the two
histories: a rejected call appends to neither (state unchanged), an
accepted call appends exactly one element to each (with FIFO eviction at
capacity 15), so equal lengths are preserved. -/
theorem C10_history_invariant (st : DiagState) (bpm conf : ℚ) :
    ((bpm = 0 ∨ conf < 1/5) → (analyze_vitals st bpm conf).1 = st) ∧
    (¬ (bpm = 0 ∨ conf < 1/5) →
       (analyze_vitals st bpm conf).1.bpm_history =
         lastN 15 (st.bpm_history ++ [bpm]) ∧
       (analyze_vitals st bpm conf).1.stress_history =
         lastN 15 (st.stress_history ++ [stressLevelOf conf])) ∧
    (st.bpm_history.length = st.stress_history.length →
       (analyze_vitals st bpm conf).1.bpm_history.length =
         (analyze_vitals st bpm conf).1.stress_history.length) := by
  refine ⟨fun h => by rw [analyze_vitals_reject st bpm conf h],
          fun h => ?_, fun hlen => ?_⟩
  · rw [analyze_vitals_accept st bpm conf h]
    exact ⟨rfl, rfl⟩
  · by_cases h : bpm = 0 ∨ conf < 1/5
    · rw [analyze_vitals_reject st bpm conf h]
      exact hlen
    · rw [analyze_vitals_accept st bpm conf h]
      show (postBpmHistory st bpm).length = (postStressHistory st conf).length
      unfold postBpmHistory postStressHistory dequeAppend
      rw [lastN_length, lastN_length]
      simp [hlen]

theorem C10_history_invariant_witness :
    (analyze_vitals initState 72 (9/10)).1.bpm_history =
        lastN 15 (initState.bpm_history ++ [72]) ∧
      (analyze_vitals initState 72 (9/10)).1.stress_history =
        lastN 15 (initState.stress_history ++ [stressLevelOf (9/10)]) :=
  (C10_history_invariant initState 72 (9/10)).2.1 (by norm_num)

/-- C9: starting from empty histories, analyze_vitals 72 0.9 returns the
snapshot with heartRate 72.0, alerts exactly
["Normal heart rate", "Low stress"] in that order, healthStatus "Normal"
and fatigueRisk "Low". -/
theorem C9_scenario :
    (analyze_vitals initState 72 (9/10)).2.heart_rate = 72 ∧
      (analyze_vitals initState 72 (9/10)).2.alerts =
        ["Normal heart rate", "Low stress"] ∧
      (analyze_vitals initState 72 (9/10)).2.health_status = "Normal" ∧
      (analyze_vitals initState 72 (9/10)).2.fatigue_risk = "Low" := by
  have hacc : ¬ ((72 : ℚ) = 0 ∨ (9/10 : ℚ) < 1/5) := by norm_num
  refine ⟨?_, ?_, ?_, ?_⟩
  · rw [analyze_vitals_accept_hr initState 72 (9/10) hacc]
    unfold roundTo roundHalfEven
    norm_num
  · rw [analyze_vitals_accept_alerts initState 72 (9/10) hacc,
      avgStress_init, if_neg (not_fatigueFlag_init 72)]
    unfold hrAlert stressAlert
    norm_num
  · rw [analyze_vitals_accept_status initState 72 (9/10) hacc]
    unfold healthStatusOf
    norm_num
  · rw [analyze_vitals_accept_risk initState 72 (9/10) hacc,
      if_neg (not_fatigueFlag_init 72), avgStress_init]
    unfold stressRisk
    norm_num

theorem min_quarter_one : min (1/4 : ℚ) 1 = 1/4 :=
  min_eq_left (by norm_num)

theorem postStressHistory_init_quarter :
    postStressHistory initState (1/4) = [3/4] := by
  unfold postStressHistory dequeAppend lastN stressLevelOf initState
  rw [min_quarter_one]
  norm_num

theorem avgStress_init_quarter : avgStress initState (1/4) = 3/4 := by
  unfold avgStress
  rw [postStressHistory_init_quarter]
  simp [listMean]

/-- C7 (counterexample): an accepted call that drives the mean stress
above 0.7 (here bpm 72 with confidence 0.25, giving stress 0.75) produces
the alert string "High stress detected", not "High stress" as the claim
(and the spec's table) word it: "High stress" is not in the alerts list
even though avgStress = 0.75 > 0.7 and fatigueRisk was escalated to
"High". -/
theorem C7_counterexample :
    (analyze_vitals initState 72 (1/4)).2.stress_level = 3/4 ∧
      (7/10 : ℚ) < 3/4 ∧
      "High stress" ∉ (analyze_vitals initState 72 (1/4)).2.alerts ∧
      (analyze_vitals initState 72 (1/4)).2.fatigue_risk = "High" := by
  have hacc : ¬ ((72 : ℚ) = 0 ∨ (1/4 : ℚ) < 1/5) := by norm_num
  refine ⟨?_, by norm_num, ?_, ?_⟩
  · rw [analyze_vitals_accept_stress initState 72 (1/4) hacc,
      avgStress_init_quarter]
    unfold roundTo roundHalfEven
    norm_num
  · rw [analyze_vitals_accept_alerts initState 72 (1/4) hacc,
      avgStress_init_quarter, if_neg (not_fatigueFlag_init 72)]
    unfold hrAlert stressAlert
    norm_num
    exact ⟨by decide, by decide⟩
  · rw [analyze_vitals_accept_risk initState 72 (1/4) hacc,
      if_neg (not_fatigueFlag_init 72), avgStress_init_quarter]
    unfold stressRisk
    norm_num

/-- C7 (amended): on every accepted call, with avgStress the mean of the
post-append stress history, avgStress > 0.7 puts the alert
"High stress detected" (the code's actual string; the claim's "High
stress" does not occur) in the alerts list with fatigueRisk "High";
0.5 < avgStress ≤ 0.7 gives "Moderate stress" and fatigueRisk "Medium",
and avgStress ≤ 0.5 gives "Low stress" and fatigueRisk "Low" — the latter
two absent the fatigue-trend flag, which overrides fatigueRisk to
"High". -/
theorem C7_amended_stress_classification (st : DiagState) (bpm conf : ℚ)
    (hacc : ¬ (bpm = 0 ∨ conf < 1/5)) :
    (7/10 < avgStress st conf →
       "High stress detected" ∈ (analyze_vitals st bpm conf).2.alerts ∧
       (analyze_vitals st bpm conf).2.fatigue_risk = "High") ∧
    (1/2 < avgStress st conf → avgStress st conf ≤ 7/10 → ¬ fatigueFlag st bpm →
       "Moderate stress" ∈ (analyze_vitals st bpm conf).2.alerts ∧
       (analyze_vitals st bpm conf).2.fatigue_risk = "Medium") ∧
    (avgStress st conf ≤ 1/2 → ¬ fatigueFlag st bpm →
       "Low stress" ∈ (analyze_vitals st bpm conf).2.alerts ∧
       (analyze_vitals st bpm conf).2.fatigue_risk = "Low") := by
  rw [analyze_vitals_accept_alerts st bpm conf hacc,
    analyze_vitals_accept_risk st bpm conf hacc]
  refine ⟨fun h7 => ⟨?_, ?_⟩, fun h5 h7 hf => ⟨?_, ?_⟩, fun h5 hf => ⟨?_, ?_⟩⟩
  · have hsa : stressAlert (avgStress st conf) = "High stress detected" := by
      unfold stressAlert; rw [if_pos h7]
    rw [hsa]; simp
  · by_cases hf : fatigueFlag st bpm
    · rw [if_pos hf]
    · rw [if_neg hf]
      unfold stressRisk
      rw [if_pos h7]
  · have hsa : stressAlert (avgStress st conf) = "Moderate stress" := by
      unfold stressAlert; rw [if_neg (not_lt.2 h7), if_pos h5]
    rw [hsa]; simp
  · rw [if_neg hf]
    unfold stressRisk
    rw [if_neg (not_lt.2 h7), if_pos h5]
  · have h7 : ¬ (7/10 < avgStress st conf) := not_lt.2 (le_trans h5 (by norm_num))
    have hsa : stressAlert (avgStress st conf) = "Low stress" := by
      unfold stressAlert; rw [if_neg h7, if_neg (not_lt.2 h5)]
    rw [hsa]; simp
  · have h7 : ¬ (7/10 < avgStress st conf) := not_lt.2 (le_trans h5 (by norm_num))
    rw [if_neg hf]
    unfold stressRisk
    rw [if_neg h7, if_neg (not_lt.2 h5)]

theorem C7_amended_stress_classification_witness :
    "Low stress" ∈ (analyze_vitals initState 72 (9/10)).2.alerts ∧
      (analyze_vitals initState 72 (9/10)).2.fatigue_risk = "Low" := by
  have h := C7_amended_stress_classification initState 72 (9/10) (by norm_num)
  refine h.2.2 ?_ (not_fatigueFlag_init 72)
  rw [avgStress_init]
  norm_num

/-- Running the seven accepted calls 80,80,80,80,72,72,72 (confidence 0.9
each) from the fresh state. -/
theorem fold7_80 :
    foldVitals initState
      [(80, 9/10), (80, 9/10), (80, 9/10), (80, 9/10),
       (72, 9/10), (72, 9/10), (72, 9/10)] =
      { bpm_history := [80, 80, 80, 80, 72, 72, 72],
        stress_history := [1/10, 1/10, 1/10, 1/10, 1/10, 1/10, 1/10],
        last_ai_advice := "AI medical assessment will appear here...",
        recommendation_history := [] } := by
  norm_num [foldVitals, List.foldl, analyze_vitals, postBpmHistory,
    postStressHistory, dequeAppend, lastN, stressLevelOf, initState,
    min_nine_tenths_one]

/-- C8 (counterexample): eight consecutive accepted bpm values whose first
four average exactly 8 BPM more than the last four (80,80,80,80 then
72,72,72,72) do NOT trigger the fatigue alert: the code requires the drop
to be strictly greater than 8 (`earlier_avg - recent_avg > 8`), so "at
least 8" is not sufficient.  The final snapshot has no
"Possible fatigue detected" alert and its fatigueRisk is not "High". -/
theorem C8_counterexample :
    listMean [80, 80, 80, 80] - listMean [(72 : ℚ), 72, 72, 72] = 8 ∧
    (analyze_vitals (foldVitals initState
        [(80, 9/10), (80, 9/10), (80, 9/10), (80, 9/10),
         (72, 9/10), (72, 9/10), (72, 9/10)]) 72 (9/10)).1.bpm_history =
      [80, 80, 80, 80, 72, 72, 72, 72] ∧
    "Possible fatigue detected" ∉ (analyze_vitals (foldVitals initState
        [(80, 9/10), (80, 9/10), (80, 9/10), (80, 9/10),
         (72, 9/10), (72, 9/10), (72, 9/10)]) 72 (9/10)).2.alerts ∧
    (analyze_vitals (foldVitals initState
        [(80, 9/10), (80, 9/10), (80, 9/10), (80, 9/10),
         (72, 9/10), (72, 9/10), (72, 9/10)]) 72 (9/10)).2.fatigue_risk ≠
      "High" := by
  have hacc : ¬ ((72 : ℚ) = 0 ∨ (9/10 : ℚ) < 1/5) := by norm_num
  rw [fold7_80]
  have hbh : postBpmHistory
      { bpm_history := [80, 80, 80, 80, 72, 72, 72],
        stress_history := [1/10, 1/10, 1/10, 1/10, 1/10, 1/10, 1/10],
        last_ai_advice := "AI medical assessment will appear here...",
        recommendation_history := [] } 72 = [80, 80, 80, 80, 72, 72, 72, 72] := by
    norm_num [postBpmHistory, dequeAppend, lastN]
  have hflag : ¬ fatigueFlag
      { bpm_history := [80, 80, 80, 80, 72, 72, 72],
        stress_history := [1/10, 1/10, 1/10, 1/10, 1/10, 1/10, 1/10],
        last_ai_advice := "AI medical assessment will appear here...",
        recommendation_history := [] } 72 := by
    intro hf
    have h := hf.2
    rw [hbh] at h
    norm_num [listMean] at h
  have havg : avgStress
      { bpm_history := [80, 80, 80, 80, 72, 72, 72],
        stress_history := [1/10, 1/10, 1/10, 1/10, 1/10, 1/10, 1/10],
        last_ai_advice := "AI medical assessment will appear here...",
        recommendation_history := [] } (9/10) = 1/10 := by
    norm_num [avgStress, postStressHistory, dequeAppend, lastN, stressLevelOf,
      min_nine_tenths_one, listMean]
  refine ⟨by norm_num [listMean], ?_, ?_, ?_⟩
  · rw [analyze_vitals_accept _ 72 (9/10) hacc]
    exact hbh
  · rw [analyze_vitals_accept_alerts _ 72 (9/10) hacc, havg, if_neg hflag]
    unfold hrAlert stressAlert
    norm_num
    exact ⟨by decide, by decide⟩
  · rw [analyze_vitals_accept_risk _ 72 (9/10) hacc, if_neg hflag, havg]
    unfold stressRisk
    norm_num
    decide

/-- C8 (amended): on an accepted call after which the heart-rate history
has at least 8 entries and the mean of the four entries preceding the last
four exceeds the mean of the last four by STRICTLY more than 8 BPM (the
code's `earlier_avg - recent_avg > 8`), the snapshot includes the alert
"Possible fatigue detected" and fatigueRisk "High".  (Eight consecutive
accepted values whose first-four mean exceeds the last-four mean by more
than 8 realize exactly this condition.) -/
theorem C8_amended_fatigue_strict (st : DiagState) (bpm conf : ℚ)
    (hacc : ¬ (bpm = 0 ∨ conf < 1/5)) (hflag : fatigueFlag st bpm) :
    "Possible fatigue detected" ∈ (analyze_vitals st bpm conf).2.alerts ∧
      (analyze_vitals st bpm conf).2.fatigue_risk = "High" := by
  rw [analyze_vitals_accept_alerts st bpm conf hacc,
    analyze_vitals_accept_risk st bpm conf hacc, if_pos hflag, if_pos hflag]
  exact ⟨List.mem_append_right _ (List.mem_singleton_self _), rfl⟩

/-- Running the seven accepted calls 81,81,81,81,72,72,72 (confidence 0.9
each) from the fresh state. -/
theorem fold7_81 :
    foldVitals initState
      [(81, 9/10), (81, 9/10), (81, 9/10), (81, 9/10),
       (72, 9/10), (72, 9/10), (72, 9/10)] =
      { bpm_history := [81, 81, 81, 81, 72, 72, 72],
        stress_history := [1/10, 1/10, 1/10, 1/10, 1/10, 1/10, 1/10],
        last_ai_advice := "AI medical assessment will appear here...",
        recommendation_history := [] } := by
  norm_num [foldVitals, List.foldl, analyze_vitals, postBpmHistory,
    postStressHistory, dequeAppend, lastN, stressLevelOf, initState,
    min_nine_tenths_one]

theorem C8_amended_fatigue_strict_witness :
    "Possible fatigue detected" ∈ (analyze_vitals (foldVitals initState
        [(81, 9/10), (81, 9/10), (81, 9/10), (81, 9/10),
         (72, 9/10), (72, 9/10), (72, 9/10)]) 72 (9/10)).2.alerts ∧
      (analyze_vitals (foldVitals initState
        [(81, 9/10), (81, 9/10), (81, 9/10), (81, 9/10),
         (72, 9/10), (72, 9/10), (72, 9/10)]) 72 (9/10)).2.fatigue_risk =
        "High" := by
  rw [fold7_81]
  apply C8_amended_fatigue_strict _ 72 (9/10) (by norm_num)
  constructor
  · norm_num [postBpmHistory, dequeAppend, lastN]
  · norm_num [postBpmHistory, dequeAppend, lastN, listMean]

end Kiosk
